import Mathlib

/-!
Verification of the dotfile-picker core against its specification.

The Go source is embedded shallowly: pure fragments become Lean functions,
filesystem access becomes an explicit read-only environment (`GoFS`,
`BackupEnv`, `ApplyEnv`, `SubEnv`), and effectful functions additionally
return an ordered event trace.  String and path manipulation mirrors the
Go standard library (`strings`, `path/filepath` on Unix): the helpers in
the first section implement exactly the stdlib behaviour the source relies
on, using structural recursion over character lists so that every
definition evaluates by kernel reduction.
-/

deriving instance DecidableEq for Except

namespace DotfilePicker

/-! ### Go string primitives (strings package, over character lists) -/

/-- Whether a list of characters starts with the pattern (strings.HasPrefix). -/
def listStarts : List Char → List Char → Bool
  | _, [] => true
  | [], _ :: _ => false
  | c :: cs, p :: ps => c = p && listStarts cs ps

/-- strings.HasPrefix on strings. -/
def strStarts (s pat : String) : Bool :=
  listStarts s.data pat.data

/-- Whether a character list contains the pattern as a substring (strings.Contains). -/
def listContains : List Char → List Char → Bool
  | [], pat => listStarts [] pat
  | c :: rest, pat => listStarts (c :: rest) pat || listContains rest pat

/-- strings.Contains on strings. -/
def strContains (s pat : String) : Bool :=
  listContains s.data pat.data

/-- Replace the first occurrence of `old` (strings.Replace with n = 1). -/
def listReplaceOnce : List Char → List Char → List Char → List Char
  | [], old, new => if listStarts [] old then new else []
  | c :: rest, old, new =>
    if listStarts (c :: rest) old then new ++ (c :: rest).drop old.length
    else c :: listReplaceOnce rest old new

/-- strings.Replace with n = 1 on strings. -/
def strReplaceOnce (s old new : String) : String :=
  ⟨listReplaceOnce s.data old.data new.data⟩

/-- strings.TrimPrefix: drop the pattern from the front when it is there. -/
def goTrimPre (s pat : String) : String :=
  if strStarts s pat then ⟨s.data.drop pat.data.length⟩ else s

/-- strings.TrimSuffix: drop the pattern from the end when it is there. -/
def goTrimSuffix (s pat : String) : String :=
  if listStarts s.data.reverse pat.data.reverse then ⟨(s.data.reverse.drop pat.data.length).reverse⟩
  else s

/-- The ASCII whitespace set trimmed by strings.TrimSpace (the source only
ever feeds it ASCII configuration text, so the Unicode cases are immaterial). -/
def isGoSpace (c : Char) : Bool :=
  c = ' ' || c = '\t' || c = '\n' || c = '\x0b' || c = '\x0c' || c = '\r'

/-- strings.TrimSpace. -/
def goTrimSpace (s : String) : String :=
  ⟨((s.data.dropWhile isGoSpace).reverse.dropWhile isGoSpace).reverse⟩

/-- Split a character list on a single separator character; agrees with
strings.Split for a one-character separator. -/
def chSplitOn (sep : Char) : List Char → List (List Char)
  | [] => [[]]
  | c :: cs =>
    match chSplitOn sep cs, decide (c = sep) with
    | r, true => [] :: r
    | h :: t, false => (c :: h) :: t
    | [], false => [[c]]

/-- strings.Split with the "\n" separator, as used on file contents. -/
def splitLines (s : String) : List String :=
  (chSplitOn '\n' s.data).map (fun l => (⟨l⟩ : String))

/-! ### Go filepath primitives (Unix rules) -/

/-- Join a component list with slashes (no cleaning). -/
def joinSlash : List String → String
  | [] => ""
  | [x] => x
  | x :: xs => x ++ "/" ++ joinSlash xs

/-- One step of lexical `..` resolution used by filepath.Clean: the
accumulator holds the output components in reverse order. -/
def cleanStep (abs : Bool) (acc : List String) (c : String) : List String :=
  if c = ".." then
    match acc with
    | [] => if abs then [] else [".."]
    | a :: rest => if a = ".." then c :: a :: rest else rest
  else c :: acc

/-- filepath.Clean for Unix paths: drop empty and `.` components, resolve
`..` lexically, keep absoluteness, and return `.` for an empty result. -/
def goClean (p : String) : String :=
  if p = "" then "."
  else
    let abs := strStarts p "/"
    let comps := ((chSplitOn '/' p.data).map (fun l => (⟨l⟩ : String))).filter
      (fun c => c ≠ "" && c ≠ ".")
    let out := (comps.foldl (cleanStep abs) []).reverse
    let s := joinSlash out
    if abs then "/" ++ s else if s = "" then "." else s

/-- filepath.Join on a component list: Go joins from the first non-empty
element and then cleans, which is equivalent to joining the non-empty
elements and cleaning (Clean collapses the duplicate slashes either way). -/
def goJoinList (elems : List String) : String :=
  let ne := elems.filter (fun e => e ≠ "")
  if ne = [] then "" else goClean (joinSlash ne)

/-- filepath.Join with two elements. -/
def goJoin (a b : String) : String := goJoinList [a, b]

/-- filepath.Join with three elements. -/
def goJoin3 (a b c : String) : String := goJoinList [a, b, c]

/-- filepath.Base for Unix paths. -/
def goBase (p : String) : String :=
  if p = "" then "."
  else
    let cs := (p.data.reverse.dropWhile (fun c => c = '/')).reverse
    if cs = [] then "/"
    else ⟨(cs.reverse.takeWhile (fun c => c ≠ '/')).reverse⟩

/-- filepath.Dir for Unix paths: everything up to and including the final
slash, cleaned. -/
def goDir (p : String) : String :=
  goClean ⟨(p.data.reverse.dropWhile (fun c => c ≠ '/')).reverse⟩

/-- filepath.IsAbs for Unix paths. -/
def goIsAbs (p : String) : Bool := strStarts p "/"

/-- Path components of a cleaned path, leading slash stripped. -/
def relComps (s : String) : List String :=
  ((chSplitOn '/' s.data).map (fun l => (⟨l⟩ : String))).filter (fun c => c ≠ "")

/-- Tail of filepath.Rel once the common leading components are gone: error
when the first remaining base component is `..`, otherwise climb out of the
remaining base components and descend into the remaining target ones. -/
def buildRel (bc tc : List String) : Option String :=
  match bc with
  | [] => some (joinSlash tc)
  | b :: rest =>
    if b = ".." then none
    else some (joinSlash (List.replicate (rest.length + 1) ".." ++ tc))

/-- Drop the common leading components of base and target, then build. -/
def relAfter : List String → List String → Option String
  | b :: bs, t :: ts => if b = t then relAfter bs ts else buildRel (b :: bs) (t :: ts)
  | bc, tc => buildRel bc tc

/-- filepath.Rel for Unix paths, `none` standing for the Go error.  Note
that for two absolute paths this never fails: it climbs with `..`
components instead — the error only occurs when exactly one side is
absolute (after cleaning), or when a leading `..` in the base blocks the
climb.  This faithfulness matters: the backup manager relies on Rel
failing for paths outside home, which it does not do. -/
def goRel (base targ : String) : Option String :=
  let b0 := goClean base
  let t0 := goClean targ
  if t0 = b0 then some "."
  else
    let b1 := if b0 = "." then "" else b0
    if (strStarts b1 "/") ≠ (strStarts t0 "/") then none
    else relAfter (relComps b1) (relComps t0)

/-! ### Filesystem environment -/

/-- Result of os.Stat: success carries whether the path is a directory;
failure distinguishes the not-exist error (os.IsNotExist) from any other
error, because the backup manager branches on that distinction. -/
inductive StatRes
  | ok (isDir : Bool)
  | notExist
  | errOther
  deriving DecidableEq

/-- One entry returned by os.ReadDir. -/
structure FSEntry where
  name : String
  isDir : Bool
  deriving DecidableEq

/-- A read-only filesystem oracle: stat per path and directory listing per
path (`none` models a ReadDir error, including not-exist). -/
structure GoFS where
  stat : String → StatRes
  readDir : String → Option (List FSEntry)

/-- pathExists from the detector source: os.Stat succeeded. -/
def pathExists (fs : GoFS) (path : String) : Bool :=
  match fs.stat path with
  | .ok _ => true
  | _ => false

/-- fileExists from the detector source: stat succeeded and not a directory. -/
def fileExists (fs : GoFS) (path : String) : Bool :=
  match fs.stat path with
  | .ok d => !d
  | _ => false

/-- dirExists from the detector source: stat succeeded and is a directory. -/
def dirExists (fs : GoFS) (path : String) : Bool :=
  match fs.stat path with
  | .ok d => d
  | _ => false

/-! ### Layout classifier (internal/manifest detector source) -/

/-- RepoStructure from the detector source.  The specification names the
categories ManagedSingleRoot (= StructureChezmoi), PackageBased
(= StructureStow), SingleConfigDir (= StructureConfig), Flat, BareWorktree
(= StructureBareRepo) and Unknown. -/
inductive RepoStructure
  | StructureUnknown
  | StructureFlat
  | StructureStow
  | StructureChezmoi
  | StructureBareRepo
  | StructureConfig
  deriving DecidableEq

/-- hasConfigFiles: the directory lists an entry whose name starts with "."
or contains "config"; a ReadDir error yields false. -/
def hasConfigFiles (fs : GoFS) (dirPath : String) : Bool :=
  match fs.readDir dirPath with
  | none => false
  | some entries =>
    entries.any (fun e => strStarts e.name "." || strContains e.name "config")

/-- The loop body of looksLikeStow: count top-level directories that are
not hidden, not "scripts"/"bin", and satisfy hasConfigFiles. -/
def stowCountLoop (fs : GoFS) (repoPath : String) : List FSEntry → Nat
  | [] => 0
  | e :: rest =>
    if !e.isDir then stowCountLoop fs repoPath rest
    else if strStarts e.name "." || e.name = "scripts" || e.name = "bin" then
      stowCountLoop fs repoPath rest
    else if hasConfigFiles fs (goJoin repoPath e.name) then
      stowCountLoop fs repoPath rest + 1
    else stowCountLoop fs repoPath rest

/-- looksLikeStow: at least two package-like top-level directories. -/
def looksLikeStow (fs : GoFS) (repoPath : String) : Bool :=
  match fs.readDir repoPath with
  | none => false
  | some entries => decide (stowCountLoop fs repoPath entries ≥ 2)

/-- The loop body of hasDotfilesAtRoot: count non-directory entries whose
name starts with "." and is not version-control metadata. -/
def dotCountLoop : List FSEntry → Nat
  | [] => 0
  | e :: rest =>
    if !e.isDir && strStarts e.name "." then
      if e.name = ".git" || e.name = ".gitignore" || e.name = ".github" then
        dotCountLoop rest
      else dotCountLoop rest + 1
    else dotCountLoop rest

/-- hasDotfilesAtRoot: note that the source only counts entries with
`!entry.IsDir()`, so dot-prefixed directories never count. -/
def hasDotfilesAtRoot (fs : GoFS) (repoPath : String) : Bool :=
  match fs.readDir repoPath with
  | none => false
  | some entries => decide (dotCountLoop entries > 0)

/-- DetectStructure: the priority cascade of the detector source. -/
def DetectStructure (fs : GoFS) (repoPath : String) : RepoStructure :=
  if fileExists fs (goJoin repoPath ".chezmoi.toml") ||
      fileExists fs (goJoin repoPath ".chezmoiroot") then
    .StructureChezmoi
  else if looksLikeStow fs repoPath then .StructureStow
  else if dirExists fs (goJoin repoPath "config") then .StructureConfig
  else if hasDotfilesAtRoot fs repoPath then .StructureFlat
  else .StructureUnknown

/-! ### Path resolver (same source file) -/

/-- The alias table of ResolveFilePath.  The source stores it in a Go map,
whose iteration order is unspecified; it is embedded here in source text
order.  The two patterns ".config" and "~" can in principle both occur in
one request, in which case the Go result may depend on map order — none of
the verified claims concerns such a request. -/
def pathAliases : List (String × List String) :=
  [(".config", ["xdg_config", "config"]), ("~", ["home"])]

/-- Inner loop of the alias pass: try each replacement of the pattern. -/
def tryReps (fs : GoFS) (repoPath relativePath pat : String) : List String → Option String
  | [] => none
  | rep :: rest =>
    let fullPath := goJoin repoPath (strReplaceOnce relativePath pat rep)
    if pathExists fs fullPath then some fullPath
    else tryReps fs repoPath relativePath pat rest

/-- Outer loop of the alias pass: skip patterns not contained in the
request, fall through to the next pattern when no replacement hits. -/
def tryAliases (fs : GoFS) (repoPath relativePath : String) :
    List (String × List String) → Option String
  | [] => none
  | (pat, reps) :: rest =>
    if strContains relativePath pat then
      match tryReps fs repoPath relativePath pat reps with
      | some fp => some fp
      | none => tryAliases fs repoPath relativePath rest
    else tryAliases fs repoPath relativePath rest

/-- Loop of findInStow: first non-hidden top-level directory containing the
suffix wins. -/
def findInStowLoop (fs : GoFS) (repoPath relativePath : String) :
    List FSEntry → String × Bool
  | [] => ("", false)
  | e :: rest =>
    if !e.isDir || strStarts e.name "." then findInStowLoop fs repoPath relativePath rest
    else
      let pkgPath := goJoin3 repoPath e.name relativePath
      if pathExists fs pkgPath then (pkgPath, true)
      else findInStowLoop fs repoPath relativePath rest

/-- findInStow from the detector source. -/
def findInStow (fs : GoFS) (repoPath relativePath : String) : String × Bool :=
  match fs.readDir repoPath with
  | none => ("", false)
  | some entries => findInStowLoop fs repoPath relativePath entries

/-- findInChezmoi from the detector source. -/
def findInChezmoi (fs : GoFS) (repoPath relativePath : String) : String × Bool :=
  let base := goBase relativePath
  let dir := goDir relativePath
  if strStarts base "." then
    let chezmoiName := "dot_" ++ goTrimPre base "."
    let chezmoiPath := goJoin3 repoPath dir chezmoiName
    if fileExists fs chezmoiPath then (chezmoiPath, true) else ("", false)
  else ("", false)

/-- ResolveFilePath from the detector source: exact join, then the
leading-dot strip directly under root, then alias substitution, then the
layout-specific search (`st` is the detected structure; `structure` is a
Lean keyword). -/
def ResolveFilePath (fs : GoFS) (repoPath relativePath : String)
    (st : RepoStructure) : String × Bool :=
  let exactPath := goJoin repoPath relativePath
  if pathExists fs exactPath then (exactPath, true)
  else if strStarts (goBase relativePath) "." &&
      pathExists fs (goJoin repoPath (goTrimPre (goBase relativePath) ".")) then
    (goJoin repoPath (goTrimPre (goBase relativePath) "."), true)
  else
    match tryAliases fs repoPath relativePath pathAliases with
    | some p => (p, true)
    | none =>
      match st with
      | .StructureStow => findInStow fs repoPath relativePath
      | .StructureChezmoi => findInChezmoi fs repoPath relativePath
      | .StructureConfig =>
        let configPath := goJoin3 repoPath "config" relativePath
        if pathExists fs configPath then (configPath, true) else ("", false)
      | _ => ("", false)

/-! ### Submodules (internal/cache/submodules.go) -/

/-- SubmoduleConfig: one entry of the .gitmodules descriptor. -/
structure SubmoduleConfig where
  Path : String
  URL : String
  deriving DecidableEq

/-- The scanner loop of ParseGitmodules over the file lines.  A new
"[submodule" header flushes the previous section unconditionally; lines
outside any section are ignored; "path =" / "url =" lines update the
current section (both tests apply to each line, mirroring the two
consecutive ifs of the source). -/
def parseGitmodulesLoop (current : Option SubmoduleConfig)
    (acc : List SubmoduleConfig) : List String → List SubmoduleConfig
  | [] =>
    match current with
    | some c => if c.Path ≠ "" && c.URL ≠ "" then acc ++ [c] else acc
    | none => acc
  | l :: rest =>
    let line := goTrimSpace l
    if strStarts line "[submodule" then
      match current with
      | some c => parseGitmodulesLoop (some ⟨"", ""⟩) (acc ++ [c]) rest
      | none => parseGitmodulesLoop (some ⟨"", ""⟩) acc rest
    else
      match current with
      | none => parseGitmodulesLoop none acc rest
      | some c =>
        let c := if strStarts line "path =" then
          { c with Path := goTrimSpace (goTrimPre line "path =") } else c
        let c := if strStarts line "url =" then
          { c with URL := goTrimSpace (goTrimPre line "url =") } else c
        parseGitmodulesLoop (some c) acc rest

/-- ParseGitmodules restricted to its pure core: the parse of the
descriptor text, given as its list of lines.  The missing-file and
open-error cases of the source happen before this loop and return an
empty list resp. an error unrelated to the parse. -/
def parseGitmodulesLines (lines : List String) : List SubmoduleConfig :=
  parseGitmodulesLoop none [] lines

/-- ConvertSSHToHTTPS from the source. -/
def ConvertSSHToHTTPS (sshURL : String) : String :=
  if strStarts sshURL "git@" then
    let url := goTrimPre sshURL "git@"
    let url := strReplaceOnce url ":" "/"
    let url := goTrimSuffix url ".git"
    "https://" ++ url
  else sshURL

/-- Result of the ReadDir call inside IsEmptyDirectory, with the not-exist error
distinguished because the resolver creates missing directories. -/
inductive EmptyRes
  | ok (isEmpty : Bool)
  | errNotExist
  | errOther
  deriving DecidableEq

/-- Environment for the recursive submodule resolver: the parse outcome of
the descriptor of each directory (error, or the entry list — an absent
descriptor is the empty list), emptiness of each directory, and the
outcome of MkdirAll and of each attempted clone. -/
structure SubEnv where
  gitmodules : String → Except Unit (List SubmoduleConfig)
  isEmptyDir : String → EmptyRes
  mkdirOk : String → Bool
  cloneOk : String → String → Bool

/-- The clone attempt for one entry: HTTPS-converted URL first, then the
original URL when the conversion changed it (source lines 230-247). -/
def cloneAttempt (env : SubEnv) (url submodulePath : String) : Bool :=
  let cloneURL := ConvertSSHToHTTPS url
  if env.cloneOk cloneURL submodulePath then true
  else if cloneURL ≠ url then env.cloneOk url submodulePath
  else false

/-- Whether one loop iteration of ResolveSubmodulesRecursive increments
successCount: an already-populated directory counts immediately; a missing
directory is created (an MkdirAll failure skips the entry); an empty or
just-created directory counts when the clone attempt succeeds. -/
def entryResolves (env : SubEnv) (repoDir : String) (sub : SubmoduleConfig) : Bool :=
  let submodulePath := goJoin repoDir sub.Path
  match env.isEmptyDir submodulePath with
  | .errNotExist =>
    if env.mkdirOk submodulePath then cloneAttempt env sub.URL submodulePath else false
  | .errOther => false
  | .ok false => true
  | .ok true => cloneAttempt env sub.URL submodulePath

/-- The successCount accumulated by the resolver loop.  The source also
recurses into each resolved entry with maxDepth-1, but it discards the
recursive result (lines 223-224 and 252-253), so in this read-only
embedding the nested calls contribute nothing observable and are omitted
from the count. -/
def resolveLoopCount (env : SubEnv) (repoDir : String) : List SubmoduleConfig → Nat
  | [] => 0
  | sub :: rest =>
    if entryResolves env repoDir sub then resolveLoopCount env repoDir rest + 1
    else resolveLoopCount env repoDir rest

/-- ResolveSubmodulesRecursive: depth exhausted returns nil; a parse error
propagates; an empty entry list returns nil; otherwise the level fails
exactly when no entry resolved.  The Go int depth is modelled as Nat (all
call sites pass the positive constant 3). -/
def ResolveSubmodulesRecursive (env : SubEnv) (repoDir : String) :
    Nat → Except String Unit
  | 0 => .ok ()
  | Nat.succ _ =>
    match env.gitmodules repoDir with
    | .error _ => .error "couldn\x27t parse .gitmodules"
    | .ok submodules =>
      if submodules.length = 0 then .ok ()
      else if resolveLoopCount env repoDir submodules = 0 then
        .error "couldn\x27t resolve any submodules"
      else .ok ()

/-! ### Diff engine (internal/diff/engine.go) -/

/-- Result from the diff engine source (paths omitted: no claim involves
them). -/
structure DiffResult where
  Diff : String
  IsNew : Bool
  IsIdentical : Bool
  deriving DecidableEq

/-- One chunk of the diffmatchpatch edit script consumed by formatDiff. -/
inductive DiffOp
  | insert
  | delete
  | equal
  deriving DecidableEq

/-- A diffmatchpatch chunk: an operation and its text. -/
structure DiffChunk where
  op : DiffOp
  text : String
  deriving DecidableEq

/-- Render the non-empty lines of a chunk with a marker (the insert and
delete branches of formatDiff drop empty lines). -/
def renderMarked (marker : String) (lines : List String) : String :=
  match lines with
  | [] => ""
  | l :: rest =>
    (if l ≠ "" then marker ++ l ++ "\n" else "") ++ renderMarked marker rest

/-- The equal branch of formatDiff: more than 6 lines collapse to the
first two, an ellipsis line, and the last two. -/
def renderEqual (lines : List String) : String :=
  if lines.length > 6 then
    renderMarked "  " (lines.take 2) ++ "  ...\n" ++
      renderMarked "  " (lines.drop (lines.length - 2))
  else renderMarked "  " lines

/-- formatDiff from the source. -/
def formatDiff (diffs : List DiffChunk) : String :=
  match diffs with
  | [] => ""
  | d :: rest =>
    (match d.op with
     | .insert => renderMarked "+ " (splitLines d.text)
     | .delete => renderMarked "- " (splitLines d.text)
     | .equal => renderEqual (splitLines d.text)) ++ formatDiff rest

/-- The unconditional addition rendering used by formatNewFile (unlike
formatDiff it keeps empty lines). -/
def renderAllMarked (lines : List String) : String :=
  match lines with
  | [] => ""
  | l :: rest => "+ " ++ l ++ "\n" ++ renderAllMarked rest

/-- formatNewFile from the source: header, first 20 lines as additions,
and a "... and N more lines" marker beyond the cap. -/
def formatNewFile (content : String) : String :=
  let lines := splitLines content
  let maxLines := 20
  "new file - doesn\x27t exist yet\n\n" ++
    (if lines.length > maxLines then
      renderAllMarked (lines.take maxLines) ++
        "\n... and " ++ toString (lines.length - maxLines) ++ " more lines"
    else renderAllMarked lines)

/-- GenerateDiff restricted to its pure core: the source content, the
target content when the target exists (`none` = os.IsNotExist), and the
cleaned diffmatchpatch edit script the external library would produce for
the modified case. -/
def GenerateDiff (sourceStr : String) (target : Option String)
    (script : List DiffChunk) : DiffResult :=
  match target with
  | none => { Diff := formatNewFile sourceStr, IsNew := true, IsIdentical := false }
  | some targetStr =>
    if sourceStr = targetStr then { Diff := "", IsNew := false, IsIdentical := true }
    else { Diff := formatDiff script, IsNew := false, IsIdentical := false }

/-- The scanning loop of GetDiffStats over the rendered lines. -/
def diffStatsLoop : List String → Nat × Nat
  | [] => (0, 0)
  | l :: rest =>
    let (a, d) := diffStatsLoop rest
    if strStarts l "+ " then (a + 1, d)
    else if strStarts l "- " then (a, d + 1)
    else (a, d)

/-- GetDiffStats from the source: New and Identical results short-circuit
to (0, 0); otherwise the rendered text is scanned for marker lines. -/
def GetDiffStats (result : DiffResult) : Nat × Nat :=
  if result.IsNew || result.IsIdentical then (0, 0)
  else diffStatsLoop (splitLines result.Diff)

/-! ### Backup manager (internal/backup source) -/

/-- A calendar time with second resolution, enough for the Go layout
"20060102_150405" used in backup names. -/
structure DateTime where
  year : Nat
  month : Nat
  day : Nat
  hour : Nat
  minute : Nat
  second : Nat
  deriving DecidableEq

/-- Two-digit zero padding as produced by the Go time layout. -/
def pad2 (n : Nat) : String :=
  if n < 10 then "0" ++ toString n else toString n

/-- Four-digit zero padding for the year field. -/
def pad4 (n : Nat) : String :=
  if n < 10 then "000" ++ toString n
  else if n < 100 then "00" ++ toString n
  else if n < 1000 then "0" ++ toString n
  else toString n

/-- time.Time.Format with layout "20060102_150405". -/
def formatGoTimestamp (t : DateTime) : String :=
  pad4 t.year ++ pad2 t.month ++ pad2 t.day ++ "_" ++
    pad2 t.hour ++ pad2 t.minute ++ pad2 t.second

/-- BackupMetadata from the backup source. -/
structure BackupMetadata where
  OriginalPath : String
  BackupPath : String
  Timestamp : DateTime
  CreatorID : String
  DotfileID : String
  deriving DecidableEq

/-- Manager from the backup source. -/
structure Manager where
  backupDir : String

/-- Effects the backup manager can perform, in order of occurrence. -/
inductive BackupEvent
  | mkdirAll (dir : String)
  | copyFile (src dst : String)
  | writeIndex (record : BackupMetadata)
  deriving DecidableEq

/-- Environment for one Backup call: the os.Stat outcome on the original,
the MkdirAll and copyFile outcomes, the current time and $HOME.  The
metadata save never influences the result (its error is discarded by the
source), so it carries no outcome here. -/
structure BackupEnv where
  statRes : StatRes
  mkdirOk : Bool
  copyOk : Bool
  now : DateTime
  home : String

/-- Manager.Backup: only an os.IsNotExist stat error returns early (nil
record, nil error, no effects); any other stat outcome proceeds.  The
backup path mirrors filepath.Join(backupDir, Dir(Rel(HOME, original)),
name), with Rel falling back to the bare basename only when Rel errors. -/
def Manager.Backup (m : Manager) (env : BackupEnv)
    (originalPath creatorID dotfileID : String) :
    Except String (Option BackupMetadata) × List BackupEvent :=
  match env.statRes with
  | .notExist => (.ok none, [])
  | _ =>
    let backupName := goBase originalPath ++ "_" ++ formatGoTimestamp env.now ++
      "_" ++ dotfileID ++ ".bak"
    let relativePath :=
      match goRel env.home originalPath with
      | some r => r
      | none => goBase originalPath
    let backupPath := goJoin3 m.backupDir (goDir relativePath) backupName
    if !env.mkdirOk then
      (.error "couldn\x27t create backup directory", [.mkdirAll (goDir backupPath)])
    else if !env.copyOk then
      (.error "couldn\x27t backup file",
        [.mkdirAll (goDir backupPath), .copyFile originalPath backupPath])
    else
      let metadata : BackupMetadata :=
        ⟨originalPath, backupPath, env.now, creatorID, dotfileID⟩
      (.ok (some metadata),
        [.mkdirAll (goDir backupPath), .copyFile originalPath backupPath,
          .writeIndex metadata])

/-! ### Applier (applier source) -/

/-- ApplyResult from the applier source (Error as an optional message). -/
structure ApplyResult where
  Success : Bool
  BackupPath : String
  TargetPath : String
  Error : Option String
  Skipped : Bool
  deriving DecidableEq

/-- Applier from the applier source. -/
structure Applier where
  backupManager : Manager
  homeDir : String

/-- Apply-level effects in order of occurrence.  The whole Backup call is
one event: the backup manager writes only under its computed backup path
and the index, never the apply target. -/
inductive ApplyEvent
  | backupCall (target : String)
  | mkdirTargetDir (dir : String)
  | writeTarget (target : String)
  | restoreBackup (backupPath target : String)
  deriving DecidableEq

/-- Environment for one Apply call: the environment of the inner Backup
call, plus the MkdirAll and copyFile outcomes for the target itself. -/
structure ApplyEnv where
  benv : BackupEnv
  mkdirOk : Bool
  copyOk : Bool

/-- The BackupPath recorded on an ApplyResult: the source leaves it empty
when the backup manager returned no record. -/
def backupPathOf : Option BackupMetadata → String
  | some meta => meta.BackupPath
  | none => ""

/-- The restore attempted after a failed copy: only when a backup record
exists. -/
def restoreEvents (md : Option BackupMetadata) (target : String) : List ApplyEvent :=
  match md with
  | some meta => [.restoreBackup meta.BackupPath target]
  | none => []

/-- resolveTargetPath from the applier source: leading "~" is replaced by
home, a leading "." or any other relative form joins under home, an
absolute path passes through.  The empty path falls to the final
home-relative join, as in the source. -/
def resolveTargetPath (homeDir relPath : String) : String :=
  match relPath.data with
  | '~' :: rest => goJoin homeDir ⟨rest⟩
  | '.' :: _ => goJoin homeDir relPath
  | _ =>
    if goIsAbs relPath then relPath
    else goJoin homeDir relPath

/-- Applier.Apply: resolve the target, call Backup first, then MkdirAll on
the parent of the target, then copy; a copy failure attempts a restore from the
backup just taken.  The trace records the events in program order; the
writeTarget event covers os.Create on the target (creation/truncation),
so it is emitted for failed copies as well. -/
def Applier.Apply (a : Applier) (env : ApplyEnv)
    (sourcePath targetRelPath creatorID dotfileID : String) :
    ApplyResult × List ApplyEvent :=
  let targetPath := resolveTargetPath a.homeDir targetRelPath
  match (a.backupManager.Backup env.benv targetPath creatorID dotfileID).1 with
  | .error e =>
    ({ Success := false, BackupPath := "", TargetPath := targetPath,
       Error := some ("couldn\x27t create backup: " ++ e), Skipped := false },
     [.backupCall targetPath])
  | .ok backupMetadata =>
    let backupPath := backupPathOf backupMetadata
    let targetDir := goDir targetPath
    if !env.mkdirOk then
      ({ Success := false, BackupPath := backupPath, TargetPath := targetPath,
         Error := some "couldn\x27t create target directory", Skipped := false },
       [.backupCall targetPath, .mkdirTargetDir targetDir])
    else if !env.copyOk then
      ({ Success := false, BackupPath := backupPath, TargetPath := targetPath,
         Error := some "couldn\x27t copy file", Skipped := false },
       [.backupCall targetPath, .mkdirTargetDir targetDir, .writeTarget targetPath] ++
         restoreEvents backupMetadata targetPath)
    else
      ({ Success := true, BackupPath := backupPath, TargetPath := targetPath,
         Error := none, Skipped := false },
       [.backupCall targetPath, .mkdirTargetDir targetDir, .writeTarget targetPath])

/-! ### Specification-side definitions

These re-state rules in the words of the specification, independently of the
loop shapes of the source, so the claim theorems compare the two. -/

/-- Spec wording of rule 1: a manager marker file exists at the root. -/
def specManagedSingleRoot (fs : GoFS) (root : String) : Bool :=
  fileExists fs (goJoin root ".chezmoi.toml") || fileExists fs (goJoin root ".chezmoiroot")

/-- Spec wording of a package-style entry: its name starts with "." or
contains "config". -/
def specConfigLikeEntry (e : FSEntry) : Bool :=
  strStarts e.name "." || strContains e.name "config"

/-- Spec wording of rule 2: at least two top-level non-hidden directories
(excluding "scripts" and "bin") each containing a package-style entry. -/
def specPackageBased (fs : GoFS) (root : String) : Bool :=
  match fs.readDir root with
  | none => false
  | some entries =>
    decide (2 ≤ (entries.filter (fun e =>
      e.isDir && !(strStarts e.name ".") && e.name ≠ "scripts" && e.name ≠ "bin" &&
        (match fs.readDir (goJoin root e.name) with
         | none => false
         | some inner => inner.any specConfigLikeEntry))).length)

/-- Spec wording of rule 3: a top-level directory literally named "config". -/
def specSingleConfigDir (fs : GoFS) (root : String) : Bool :=
  dirExists fs (goJoin root "config")

/-- Whether an entry name is the version-control metadata excluded by the
Flat rule. -/
def isVcMeta (name : String) : Bool :=
  name = ".git" || name = ".gitignore" || name = ".github"

/-- The claim C5 wording of the Flat rule: some dot-prefixed entry of any
kind (file or directory) other than version-control metadata. -/
def specFlatAnyKind (fs : GoFS) (root : String) : Bool :=
  match fs.readDir root with
  | none => false
  | some entries => entries.any (fun e => strStarts e.name "." && !isVcMeta e.name)

/-- The amended Flat rule: some dot-prefixed non-directory entry other
than version-control metadata. -/
def specFlatFileOnly (fs : GoFS) (root : String) : Bool :=
  match fs.readDir root with
  | none => false
  | some entries =>
    entries.any (fun e => !e.isDir && strStarts e.name "." && !isVcMeta e.name)

/-- Spec-side count of submodule entries that end up resolved at a level. -/
def specResolvedCount (env : SubEnv) (repoDir : String)
    (subs : List SubmoduleConfig) : Nat :=
  (subs.filter (entryResolves env repoDir)).length

/-- Spec-side addition count: rendered lines beginning with "+ ". -/
def countPlusLines (s : String) : Nat :=
  ((splitLines s).filter (fun l => strStarts l "+ ")).length

/-- Spec-side deletion count: rendered lines beginning with "- ". -/
def countMinusLines (s : String) : Nat :=
  ((splitLines s).filter (fun l => strStarts l "- ")).length

/-- Two-section .gitmodules text for claim C10, with each path/url line
present or absent according to the flags. -/
def mkGitmodulesLines (a1 b1 a2 b2 : Bool) (p1 u1 p2 u2 : String) : List String :=
  ["[submodule \x22s1\x22]"] ++
    (if a1 then ["path = " ++ p1] else []) ++
    (if b1 then ["url = " ++ u1] else []) ++
    ["[submodule \x22s2\x22]"] ++
    (if a2 then ["path = " ++ p2] else []) ++
    (if b2 then ["url = " ++ u2] else [])

/-! ### Concrete fixtures used by witnesses and counterexamples -/

/-- A fully unreadable filesystem: every stat fails with a non-not-exist
error and every directory read fails. -/
def fsUnreadable : GoFS :=
  { stat := fun _ => .errOther, readDir := fun _ => none }

/-- A root holding a single dot-prefixed file ".vimrc" and nothing else. -/
def fsDotFile : GoFS :=
  { stat := fun p => if p = "/r/.vimrc" then .ok false else .notExist,
    readDir := fun p => if p = "/r" then some [⟨".vimrc", false⟩] else none }

/-- A root holding a single dot-prefixed directory ".vim" and nothing
else: the counterexample for claim C5. -/
def fsDotDir : GoFS :=
  { stat := fun p =>
      if p = "/r/.vim" then .ok true else .notExist,
    readDir := fun p => if p = "/r" then some [⟨".vim", true⟩] else none }

/-- A root with xdg_config/nvim and home/.bashrc but no literal .config
directory, no root-level "~" entry and no root-level "bashrc". -/
def fsAlias : GoFS :=
  { stat := fun p =>
      if p = "/r/xdg_config/nvim" then .ok true
      else if p = "/r/home/.bashrc" then .ok false
      else .notExist,
    readDir := fun _ => none }

/-- A root where cfg/.vimrc is requested, absent at its exact join, and a
"vimrc" entry sits directly under the root. -/
def fsDotStrip : GoFS :=
  { stat := fun p => if p = "/r/vimrc" then .ok false else .notExist,
    readDir := fun _ => none }

/-- A submodule environment with two entries: "a" already populated,
"b" empty with every clone failing. -/
def subEnvPartial : SubEnv :=
  { gitmodules := fun p =>
      if p = "/repo" then
        .ok [⟨"a", "git@github.com:u/a.git"⟩, ⟨"b", "https://github.com/u/b"⟩]
      else .ok [],
    isEmptyDir := fun p => if p = "/repo/a" then .ok false else .ok true,
    mkdirOk := fun _ => true,
    cloneOk := fun _ _ => false }

/-- Backup environment for an existing regular file, all effects
succeeding, at a fixed time, home /home/user. -/
def benvExisting : BackupEnv :=
  { statRes := .ok false, mkdirOk := true, copyOk := true,
    now := ⟨2024, 1, 2, 13, 4, 5⟩, home := "/home/user" }

/-- Backup environment for a missing original. -/
def benvMissing : BackupEnv :=
  { statRes := .notExist, mkdirOk := true, copyOk := true,
    now := ⟨2024, 1, 2, 13, 4, 5⟩, home := "/home/user" }

/-- The backup manager rooted at the default backup directory. -/
def mgrDefault : Manager := ⟨"/home/user/.config/dotfile-picker/backups"⟩

/-- An applier over that manager with home /home/user. -/
def applierDefault : Applier := ⟨mgrDefault, "/home/user"⟩

/-- Apply environment whose backup call fails at the copy step. -/
def aenvBackupFails : ApplyEnv :=
  { benv := { benvExisting with copyOk := false }, mkdirOk := true, copyOk := true }

/-- Apply environment where everything succeeds. -/
def aenvAllOk : ApplyEnv :=
  { benv := benvExisting, mkdirOk := true, copyOk := true }

/-- A modified-file diff result with a one-line insertion and a one-line
deletion. -/
def diffModified : DiffResult :=
  GenerateDiff "a" (some "b") [⟨.insert, "a"⟩, ⟨.delete, "b"⟩]

/-- The two-entry submodule list served by subEnvPartial. -/
def subsPartial : List SubmoduleConfig :=
  [⟨"a", "git@github.com:u/a.git"⟩, ⟨"b", "https://github.com/u/b"⟩]

/-- The fixed timestamp of the backup fixtures. -/
def ts0 : DateTime := ⟨2024, 1, 2, 13, 4, 5⟩

/-- The record the embedded Backup produces for /etc/hosts under
benvExisting: its BackupPath has climbed out of the backup root. -/
def mdEtcHosts : BackupMetadata :=
  ⟨"/etc/hosts", "/home/user/.config/etc/hosts_20240102_130405_hosts.bak",
    ts0, "creator", "hosts"⟩

end DotfilePicker

namespace DotfilePicker

/-! ### Supporting lemmas -/

/-- A rendered line beginning with the addition marker does not begin with
the deletion marker. -/
theorem startsPlus_not_minus (l : String) (h : strStarts l "+ " = true) :
    strStarts l "- " = false := by
  unfold strStarts at h ⊢
  cases l with
  | mk data =>
    cases data with
    | nil => exact absurd h (by decide)
    | cons c cs =>
      change listStarts (c :: cs) ('+' :: [' ']) = true at h
      change listStarts (c :: cs) ('-' :: [' ']) = false
      simp only [listStarts, Bool.and_eq_true, decide_eq_true_eq] at h
      obtain ⟨hc, -⟩ := h
      rw [hc]
      simp [listStarts]

/-- The single-pass scanning loop of GetDiffStats counts exactly the lines
beginning with the addition marker and the lines beginning with the
deletion marker. -/
theorem diffStatsLoop_eq (ls : List String) :
    diffStatsLoop ls =
      (((ls.filter (fun l => strStarts l "+ ")).length),
        ((ls.filter (fun l => strStarts l "- ")).length)) := by
  induction ls with
  | nil => rfl
  | cons l rest ih =>
    simp only [diffStatsLoop, ih, List.filter_cons]
    cases hp : strStarts l "+ " with
    | true =>
      have hm := startsPlus_not_minus l hp
      simp [hp, hm]
    | false =>
      cases hm : strStarts l "- " with
      | true => simp [hp, hm]
      | false => simp [hp, hm]

/-- hasConfigFiles agrees with the specification wording of a
package-style entry. -/
theorem hasConfigFiles_spec (fs : GoFS) (p : String) :
    hasConfigFiles fs p =
      (match fs.readDir p with
       | none => false
       | some inner => inner.any specConfigLikeEntry) := by
  unfold hasConfigFiles specConfigLikeEntry
  rfl

/-- The dotfile-counting loop is positive exactly when some entry is a
non-directory dot-prefixed entry outside the version-control names. -/
theorem dotCount_pos_iff_any (es : List FSEntry) :
    decide (dotCountLoop es > 0) =
      es.any (fun e => !e.isDir && strStarts e.name "." && !isVcMeta e.name) := by
  induction es with
  | nil => rfl
  | cons e rest ih =>
    simp only [List.any_cons]
    cases hd : e.isDir <;> cases hs : strStarts e.name "." <;> cases hv : isVcMeta e.name <;>
      simp_all [dotCountLoop, isVcMeta]

/-- The source Flat test equals the amended specification wording (files
only). -/
theorem hasDotfilesAtRoot_eq (fs : GoFS) (root : String) :
    hasDotfilesAtRoot fs root = specFlatFileOnly fs root := by
  unfold hasDotfilesAtRoot specFlatFileOnly
  cases h : fs.readDir root with
  | none => rfl
  | some entries => exact dotCount_pos_iff_any entries

/-- The stow-counting loop counts exactly the package-style directories. -/
theorem stowCountLoop_eq (fs : GoFS) (root : String) (es : List FSEntry) :
    stowCountLoop fs root es =
      (es.filter (fun e =>
        e.isDir && !(strStarts e.name ".") && e.name ≠ "scripts" && e.name ≠ "bin" &&
          hasConfigFiles fs (goJoin root e.name))).length := by
  induction es with
  | nil => rfl
  | cons e rest ih =>
    simp only [List.filter_cons]
    cases hd : e.isDir <;> cases hs : strStarts e.name "." <;>
      cases h1 : decide (e.name = "scripts") <;> cases h2 : decide (e.name = "bin") <;>
      cases hc : hasConfigFiles fs (goJoin root e.name) <;>
        simp_all [stowCountLoop]

/-- The source stow test equals the specification wording of the
PackageBased rule. -/
theorem looksLikeStow_eq (fs : GoFS) (root : String) :
    looksLikeStow fs root = specPackageBased fs root := by
  unfold looksLikeStow specPackageBased
  cases h : fs.readDir root with
  | none => rfl
  | some entries =>
    dsimp only
    rw [stowCountLoop_eq fs root entries]
    simp only [hasConfigFiles_spec, ge_iff_le]

/-- The resolver loop count equals the specification-side count of entries
that end up resolved. -/
theorem resolveLoopCount_eq (env : SubEnv) (repoDir : String)
    (subs : List SubmoduleConfig) :
    resolveLoopCount env repoDir subs = specResolvedCount env repoDir subs := by
  unfold specResolvedCount
  induction subs with
  | nil => rfl
  | cons s rest ih =>
    simp only [resolveLoopCount, List.filter_cons, ih]
    cases h : entryResolves env repoDir s <;> simp [h]

/-- When the original exists (stat ok) and Backup returns without error,
the returned metadata is a record whose OriginalPath is the original. -/
theorem backup_ok_record (m : Manager) (benv : BackupEnv) (orig cid did : String) (b : Bool)
    (hstat : benv.statRes = .ok b) (md : Option BackupMetadata)
    (hok : (m.Backup benv orig cid did).1 = .ok md) :
    ∃ r, md = some r ∧ r.OriginalPath = orig := by
  unfold Manager.Backup at hok
  rw [hstat] at hok
  dsimp only at hok
  by_cases hm : benv.mkdirOk
  · by_cases hc : benv.copyOk
    · simp [hm, hc] at hok
      exact ⟨_, hok.symm, rfl⟩
    · simp [hm, hc] at hok
  · simp [hm] at hok

/-! ### The claims -/

/-- C1: Applier.Apply calls the backup manager on the resolved target
before any write to the target: the trace starts with the backup call,
every writeTarget event is to the resolved target and strictly after the
backup call, a backup error yields a failed outcome with no write at all,
and for an existing target a successful backup yields a record for that
target whose path is surfaced on the result. -/
theorem claim_C1 (a : Applier) (env : ApplyEnv)
    (sourcePath targetRelPath creatorID dotfileID : String) :
    ((a.Apply env sourcePath targetRelPath creatorID dotfileID).2.head? =
      some (.backupCall (resolveTargetPath a.homeDir targetRelPath))) ∧
    (∀ j p, (a.Apply env sourcePath targetRelPath creatorID dotfileID).2.get? j =
        some (.writeTarget p) →
      p = resolveTargetPath a.homeDir targetRelPath ∧
      ∃ i, i < j ∧
        (a.Apply env sourcePath targetRelPath creatorID dotfileID).2.get? i =
          some (.backupCall p)) ∧
    (∀ e, (a.backupManager.Backup env.benv (resolveTargetPath a.homeDir targetRelPath)
        creatorID dotfileID).1 = .error e →
      (a.Apply env sourcePath targetRelPath creatorID dotfileID).1.Success = false ∧
      (a.Apply env sourcePath targetRelPath creatorID dotfileID).1.Error.isSome = true ∧
      ∀ p, ApplyEvent.writeTarget p ∉
        (a.Apply env sourcePath targetRelPath creatorID dotfileID).2) ∧
    (∀ b md, env.benv.statRes = .ok b →
      (a.backupManager.Backup env.benv (resolveTargetPath a.homeDir targetRelPath)
        creatorID dotfileID).1 = .ok md →
      ∃ r, md = some r ∧
        r.OriginalPath = resolveTargetPath a.homeDir targetRelPath ∧
        (a.Apply env sourcePath targetRelPath creatorID dotfileID).1.BackupPath =
          r.BackupPath) := by
  cases hb : (a.backupManager.Backup env.benv (resolveTargetPath a.homeDir targetRelPath)
      creatorID dotfileID).1 with
  | error e0 =>
    simp only [Applier.Apply, hb]
    refine ⟨rfl, ?_, ?_, ?_⟩
    · intro j p hj
      match j with
      | 0 => simp at hj
      | Nat.succ n => simp [List.get?] at hj
    · intro e he
      refine ⟨by simp, by simp, ?_⟩
      intro p hp
      simp at hp
    · intro b md hstat hok
      exact Except.noConfusion hok
  | ok md =>
    by_cases hm : env.mkdirOk
    · by_cases hc : env.copyOk
      · have happ : a.Apply env sourcePath targetRelPath creatorID dotfileID =
            ({ Success := true,
               BackupPath := backupPathOf md,
               TargetPath := resolveTargetPath a.homeDir targetRelPath,
               Error := none, Skipped := false },
             [.backupCall (resolveTargetPath a.homeDir targetRelPath),
              .mkdirTargetDir (goDir (resolveTargetPath a.homeDir targetRelPath)),
              .writeTarget (resolveTargetPath a.homeDir targetRelPath)]) := by
          simp [Applier.Apply, hb, hm, hc]
        refine ⟨?_, ?_, ?_, ?_⟩
        · rw [happ]
          rfl
        · intro j p hj
          rw [happ] at hj
          rcases j with _ | _ | _ | j
          · simp at hj
          · simp [List.get?] at hj
          · simp [List.get?] at hj
            subst hj
            refine ⟨rfl, 0, by omega, ?_⟩
            rw [happ]
            rfl
          · simp [List.get?] at hj
        · intro e he
          exact Except.noConfusion he
        · intro b md' hstat hok
          injection hok with hmd
          subst hmd
          obtain ⟨r, hr, hor⟩ :=
            backup_ok_record a.backupManager env.benv _ creatorID dotfileID b hstat md hb
          refine ⟨r, hr, hor, ?_⟩
          rw [happ, hr]
          rfl
      · have happ : a.Apply env sourcePath targetRelPath creatorID dotfileID =
            ({ Success := false,
               BackupPath := backupPathOf md,
               TargetPath := resolveTargetPath a.homeDir targetRelPath,
               Error := some "couldn\x27t copy file", Skipped := false },
             [.backupCall (resolveTargetPath a.homeDir targetRelPath),
              .mkdirTargetDir (goDir (resolveTargetPath a.homeDir targetRelPath)),
              .writeTarget (resolveTargetPath a.homeDir targetRelPath)] ++
               restoreEvents md (resolveTargetPath a.homeDir targetRelPath)) := by
          simp [Applier.Apply, hb, hm, hc]
        refine ⟨?_, ?_, ?_, ?_⟩
        · rw [happ]
          cases md <;> rfl
        · intro j p hj
          rw [happ] at hj
          cases md with
          | none =>
            rcases j with _ | _ | _ | j
            · simp [restoreEvents] at hj
            · simp [List.get?, restoreEvents] at hj
            · simp [List.get?, restoreEvents] at hj
              subst hj
              refine ⟨rfl, 0, by omega, ?_⟩
              rw [happ]
              rfl
            · simp [List.get?, restoreEvents] at hj
          | some meta =>
            rcases j with _ | _ | _ | _ | j
            · simp [restoreEvents] at hj
            · simp [List.get?, restoreEvents] at hj
            · simp [List.get?, restoreEvents] at hj
              subst hj
              refine ⟨rfl, 0, by omega, ?_⟩
              rw [happ]
              rfl
            · simp [List.get?, restoreEvents] at hj
            · simp [List.get?, restoreEvents] at hj
        · intro e he
          exact Except.noConfusion he
        · intro b md' hstat hok
          injection hok with hmd
          subst hmd
          obtain ⟨r, hr, hor⟩ :=
            backup_ok_record a.backupManager env.benv _ creatorID dotfileID b hstat md hb
          refine ⟨r, hr, hor, ?_⟩
          rw [happ, hr]
          rfl
    · have happ : a.Apply env sourcePath targetRelPath creatorID dotfileID =
          ({ Success := false,
             BackupPath := backupPathOf md,
             TargetPath := resolveTargetPath a.homeDir targetRelPath,
             Error := some "couldn\x27t create target directory", Skipped := false },
           [.backupCall (resolveTargetPath a.homeDir targetRelPath),
            .mkdirTargetDir (goDir (resolveTargetPath a.homeDir targetRelPath))]) := by
        simp [Applier.Apply, hb, hm]
      refine ⟨?_, ?_, ?_, ?_⟩
      · rw [happ]
        rfl
      · intro j p hj
        rw [happ] at hj
        rcases j with _ | _ | j
        · simp at hj
        · simp [List.get?] at hj
        · simp [List.get?] at hj
      · intro e he
        exact Except.noConfusion he
      · intro b md' hstat hok
        injection hok with hmd
        subst hmd
        obtain ⟨r, hr, hor⟩ :=
          backup_ok_record a.backupManager env.benv _ creatorID dotfileID b hstat md hb
        refine ⟨r, hr, hor, ?_⟩
        rw [happ, hr]
        rfl

/-- Witness for C1 at a concrete applier and environment whose backup
call fails at the copy step: the apply fails with an error and an
all-successful run writes after backing up. -/
theorem claim_C1_witness :
    ((applierDefault.Apply aenvBackupFails "/src/f" "~/.bashrc" "c" "d").1.Success = false ∧
      (applierDefault.Apply aenvBackupFails "/src/f" "~/.bashrc" "c" "d").1.Error.isSome =
        true) ∧
      (applierDefault.Apply aenvAllOk "/src/f" "~/.bashrc" "c" "d").2.head? =
        some (.backupCall "/home/user/.bashrc") := by
  constructor
  · have h := (claim_C1 applierDefault aenvBackupFails "/src/f" "~/.bashrc" "c" "d").2.2.1
      "couldn\x27t backup file" (by decide)
    exact ⟨h.1, h.2.1⟩
  · have h := (claim_C1 applierDefault aenvAllOk "/src/f" "~/.bashrc" "c" "d").1
    rw [h]
    decide

/-- C2 (code bug): for an existing original outside the home directory,
filepath.Rel succeeds with parent-directory components instead of failing,
so Backup does not fall back to a flat basename under the backup root: the
computed backup path climbs out of the backup root entirely. -/
theorem claim_C2_thm :
    (mgrDefault.Backup benvExisting "/etc/hosts" "creator" "hosts").1 =
        .ok (some mdEtcHosts) ∧
      mdEtcHosts.BackupPath ≠
        goJoin mgrDefault.backupDir "hosts_20240102_130405_hosts.bak" ∧
      strStarts mdEtcHosts.BackupPath mgrDefault.backupDir = false := by
  decide

/-- C3: at a level with a parsed non-empty entry list and remaining depth,
the recursive resolver errors exactly when no entry ends up resolved
(already-populated directories counting as resolved). -/
theorem claim_C3 (env : SubEnv) (repoDir : String) (d : Nat)
    (subs : List SubmoduleConfig)
    (hd : 1 ≤ d)
    (hparse : env.gitmodules repoDir = .ok subs)
    (hne : subs ≠ []) :
    (∃ e, ResolveSubmodulesRecursive env repoDir d = .error e) ↔
      specResolvedCount env repoDir subs = 0 := by
  cases d with
  | zero => exact absurd hd (by omega)
  | succ k =>
  unfold ResolveSubmodulesRecursive
  rw [hparse]
  dsimp only
  have hlen : ¬ subs.length = 0 := by
    simpa using hne
  rw [resolveLoopCount_eq]
  by_cases hc : specResolvedCount env repoDir subs = 0
  · rw [if_neg hlen, if_pos hc]
    exact ⟨fun _ => hc, fun _ => ⟨"couldn\x27t resolve any submodules", rfl⟩⟩
  · rw [if_neg hlen, if_neg hc]
    constructor
    · rintro ⟨e, he⟩
      exact Except.noConfusion he
    · intro h
      exact absurd h hc

/-- Witness for C3: two entries, one already populated and one whose
clones all fail, count as one resolution, so the level succeeds. -/
theorem claim_C3_witness :
    subEnvPartial.gitmodules "/repo" = .ok subsPartial ∧
      specResolvedCount subEnvPartial "/repo" subsPartial = 1 ∧
      ResolveSubmodulesRecursive subEnvPartial "/repo" 3 = .ok () := by
  refine ⟨by decide, by decide, ?_⟩
  have h := claim_C3 subEnvPartial "/repo" 3 subsPartial (by omega) (by decide) (by decide)
  cases hr : ResolveSubmodulesRecursive subEnvPartial "/repo" 3 with
  | ok u => cases u; exact hr
  | error e => exact absurd (h.mp ⟨e, hr⟩) (by decide)

/-- C4: classification is the first-match priority cascade over the
specification wording of the rules, and an unreadable root classifies as
Unknown. -/
theorem claim_C4 (fs : GoFS) (root : String) :
    (DetectStructure fs root =
      if specManagedSingleRoot fs root then RepoStructure.StructureChezmoi
      else if specPackageBased fs root then RepoStructure.StructureStow
      else if specSingleConfigDir fs root then RepoStructure.StructureConfig
      else if hasDotfilesAtRoot fs root then RepoStructure.StructureFlat
      else RepoStructure.StructureUnknown) ∧
    (fs.stat (goJoin root ".chezmoi.toml") = .errOther →
      fs.stat (goJoin root ".chezmoiroot") = .errOther →
      fs.stat (goJoin root "config") = .errOther →
      fs.readDir root = none →
      DetectStructure fs root = RepoStructure.StructureUnknown) := by
  constructor
  · unfold DetectStructure specManagedSingleRoot specSingleConfigDir
    rw [looksLikeStow_eq]
  · intro h1 h2 h3 h4
    simp [DetectStructure, fileExists, dirExists, looksLikeStow, hasDotfilesAtRoot,
      h1, h2, h3, h4]

/-- Witness for C4: a fully unreadable root is Unknown and a root with one
plain dotfile is Flat. -/
theorem claim_C4_witness :
    DetectStructure fsUnreadable "/r" = RepoStructure.StructureUnknown ∧
      DetectStructure fsDotFile "/r" = RepoStructure.StructureFlat := by
  constructor
  · exact (claim_C4 fsUnreadable "/r").2 rfl rfl rfl rfl
  · rw [(claim_C4 fsDotFile "/r").1]
    decide

/-- C5 (amended): below the higher-priority rules, the classifier assigns
Flat exactly when the root holds a dot-prefixed NON-DIRECTORY entry other
than the version-control names; dot-prefixed directories do not count. -/
theorem claim_C5 (fs : GoFS) (root : String)
    (h1 : (fileExists fs (goJoin root ".chezmoi.toml") ||
        fileExists fs (goJoin root ".chezmoiroot")) = false)
    (h2 : looksLikeStow fs root = false)
    (h3 : dirExists fs (goJoin root "config") = false) :
    DetectStructure fs root = RepoStructure.StructureFlat ↔
      specFlatFileOnly fs root = true := by
  unfold DetectStructure
  rw [h1, h2, h3, hasDotfilesAtRoot_eq]
  cases h : specFlatFileOnly fs root <;> simp [h]

/-- Counterexample to C5 as stated: a root whose only entry is the
dot-prefixed DIRECTORY ".vim" satisfies the any-kind condition of the claim and
matches no higher rule, yet classifies as Unknown rather than Flat. -/
theorem claim_C5_counterexample :
    specFlatAnyKind fsDotDir "/r" = true ∧
      (fileExists fsDotDir (goJoin "/r" ".chezmoi.toml") ||
        fileExists fsDotDir (goJoin "/r" ".chezmoiroot")) = false ∧
      looksLikeStow fsDotDir "/r" = false ∧
      dirExists fsDotDir (goJoin "/r" "config") = false ∧
      DetectStructure fsDotDir "/r" ≠ RepoStructure.StructureFlat := by
  decide

/-- Witness for the amended C5: one plain dotfile at the root yields
Flat. -/
theorem claim_C5_witness :
    specFlatFileOnly fsDotFile "/r" = true ∧
      DetectStructure fsDotFile "/r" = RepoStructure.StructureFlat :=
  ⟨by decide, (claim_C5 fsDotFile "/r" (by decide) (by decide) (by decide)).mpr (by decide)⟩

/-- C6: alias substitution resolves .config via xdg_config and leading ~
via home when the exact join misses and the dot-strip retry does not
hit. -/
theorem claim_C6 (fs : GoFS) (root : String) (st1 st2 : RepoStructure)
    (h1 : pathExists fs (goJoin root ".config/nvim") = false)
    (h2 : pathExists fs (goJoin root "xdg_config/nvim") = true)
    (h3 : pathExists fs (goJoin root "~/.bashrc") = false)
    (h4 : pathExists fs (goJoin root "bashrc") = false)
    (h5 : pathExists fs (goJoin root "home/.bashrc") = true) :
    ResolveFilePath fs root ".config/nvim" st1 = (goJoin root "xdg_config/nvim", true) ∧
      ResolveFilePath fs root "~/.bashrc" st2 = (goJoin root "home/.bashrc", true) := by
  constructor
  · have e1 : strStarts (goBase ".config/nvim") "." = false := by decide
    have e2 : strContains ".config/nvim" ".config" = true := by decide
    have e3 : strReplaceOnce ".config/nvim" ".config" "xdg_config" = "xdg_config/nvim" := by
      decide
    simp [ResolveFilePath, tryAliases, tryReps, pathAliases, e1, e2, e3, h1, h2]
  · have e1 : strStarts (goBase "~/.bashrc") "." = true := by decide
    have e2 : goTrimPre (goBase "~/.bashrc") "." = "bashrc" := by decide
    have e3 : strContains "~/.bashrc" ".config" = false := by decide
    have e4 : strContains "~/.bashrc" "~" = true := by decide
    have e5 : strReplaceOnce "~/.bashrc" "~" "home" = "home/.bashrc" := by decide
    simp [ResolveFilePath, tryAliases, tryReps, pathAliases, e1, e2, e3, e4, e5, h3, h4, h5]

/-- Witness for C6 on a concrete root with xdg_config/nvim and
home/.bashrc. -/
theorem claim_C6_witness :
    pathExists fsAlias (goJoin "/r" ".config/nvim") = false ∧
      pathExists fsAlias (goJoin "/r" "xdg_config/nvim") = true ∧
      ResolveFilePath fsAlias "/r" ".config/nvim" .StructureUnknown =
        ("/r/xdg_config/nvim", true) ∧
      ResolveFilePath fsAlias "/r" "~/.bashrc" .StructureUnknown =
        ("/r/home/.bashrc", true) := by
  have h := claim_C6 fsAlias "/r" .StructureUnknown .StructureUnknown
    (by decide) (by decide) (by decide) (by decide) (by decide)
  refine ⟨by decide, by decide, ?_, ?_⟩
  · rw [h.1]
    decide
  · rw [h.2]
    decide

/-- C7: when the final component of the request starts with a dot, the
exact join misses, and the dot-stripped basename exists directly under the
root, the resolver returns that path found=true for every layout, before
aliases or layout-specific search can run. -/
theorem claim_C7 (fs : GoFS) (root rel : String) (st : RepoStructure)
    (h0 : strStarts (goBase rel) "." = true)
    (h1 : pathExists fs (goJoin root rel) = false)
    (h2 : pathExists fs (goJoin root (goTrimPre (goBase rel) ".")) = true) :
    ResolveFilePath fs root rel st = (goJoin root (goTrimPre (goBase rel) "."), true) := by
  simp [ResolveFilePath, h0, h1, h2]

/-- Witness for C7: requesting cfg/.vimrc finds the root-level vimrc,
discarding the cfg directory component. -/
theorem claim_C7_witness :
    strStarts (goBase "cfg/.vimrc") "." = true ∧
      pathExists fsDotStrip (goJoin "/r" "cfg/.vimrc") = false ∧
      ResolveFilePath fsDotStrip "/r" "cfg/.vimrc" .StructureFlat = ("/r/vimrc", true) := by
  refine ⟨by decide, by decide, ?_⟩
  have h := claim_C7 fsDotStrip "/r" "cfg/.vimrc" .StructureFlat (by decide) (by decide)
    (by decide)
  rw [h]
  decide

/-- C8 (amended): for Modified results the reported counts equal the
number of rendered lines beginning with the addition and deletion markers;
results classified New or Identical always report (0, 0), even though a
New rendering does contain addition-marker lines. -/
theorem claim_C8 (r : DiffResult) :
    (r.IsNew = false → r.IsIdentical = false →
      GetDiffStats r = (countPlusLines r.Diff, countMinusLines r.Diff)) ∧
    ((r.IsNew = true ∨ r.IsIdentical = true) → GetDiffStats r = (0, 0)) := by
  constructor
  · intro h1 h2
    unfold GetDiffStats countPlusLines countMinusLines
    rw [h1, h2]
    simpa using diffStatsLoop_eq (splitLines r.Diff)
  · intro h
    unfold GetDiffStats
    rcases h with h | h <;> simp [h]

/-- Counterexample to C8 as stated: a New result renders one
addition-marker line yet reports stats (0, 0). -/
theorem claim_C8_counterexample :
    (GenerateDiff "hello" none []).IsNew = true ∧
      GetDiffStats (GenerateDiff "hello" none []) = (0, 0) ∧
      countPlusLines (GenerateDiff "hello" none []).Diff = 1 := by
  decide

/-- Witness for the amended C8 at a concrete Modified result. -/
theorem claim_C8_witness :
    diffModified.IsNew = false ∧ diffModified.IsIdentical = false ∧
      GetDiffStats diffModified = (1, 1) := by
  refine ⟨by decide, by decide, ?_⟩
  have h := (claim_C8 diffModified).1 (by decide) (by decide)
  rw [h]
  decide

/-- C9: backing up a non-existent original returns no record and no error
and performs no effect at all. -/
theorem claim_C9 (m : Manager) (env : BackupEnv) (orig cid did : String)
    (h : env.statRes = .notExist) :
    m.Backup env orig cid did = (.ok none, []) := by
  unfold Manager.Backup
  rw [h]

/-- Witness for C9 at a concrete missing original. -/
theorem claim_C9_witness :
    benvMissing.statRes = .notExist ∧
      mgrDefault.Backup benvMissing "/home/user/.bashrc" "c" "bash" = (.ok none, []) :=
  ⟨rfl, claim_C9 mgrDefault benvMissing "/home/user/.bashrc" "c" "bash" rfl⟩

/-- C10: in a two-section descriptor, the first section (followed by
another header) is kept even when its path or url line is missing, with
the missing field empty, while the final section is kept only when both
its path and url are present and non-empty. -/
theorem claim_C10 : ∀ a1 b1 a2 b2 : Bool,
    parseGitmodulesLines (mkGitmodulesLines a1 b1 a2 b2 "cfg/nvim"
        "https://github.com/u/nvim" "cfg/tmux" "https://github.com/u/tmux") =
      [⟨if a1 then "cfg/nvim" else "", if b1 then "https://github.com/u/nvim" else ""⟩] ++
        (if a2 && b2 then [⟨"cfg/tmux", "https://github.com/u/tmux"⟩] else []) := by
  decide

end DotfilePicker
